import Mathlib

/-!
Shallow embedding of the static sampling-strategy store
(`plugin/sampling/strategystore/static/strategy_store.go`).

Go pointers become `Option`, Go slices become `List` (a nil slice is `[]`;
in this code every slice is built by `append` only, so nil and empty
coincide), the Go map `map[string]*api_v2.SamplingStrategyResponse` becomes
an association list with overwrite-on-insert semantics, and `float64`
sampling rates become `ℚ` (no claim depends on float rounding).

Raw fetched bytes are modelled by the type `Raw`: equality on `Raw` stands
for byte equality of the fetched content, `Raw.null` is the byte string
"null" (the `nullJSON` constant of the source), `Raw.valid c tag` is a byte
string that JSON-decodes to the configuration `c` (the `tag` distinguishes
byte-different encodings of the same document), and `Raw.malformed e` is a
byte string on which `json.Unmarshal` fails with message `e`.

The `atomic.Value` snapshot cell becomes a `StoreState` carrying the
published `StoredStrategies` plus a generation counter `gen`: every call of
`atomic.Value.Store` publishes a fresh pointer, so `gen` increments exactly
when a new snapshot reference is published; "reference identical" is
"equal `gen`".
-/

namespace StaticSampling

/-- Strategy type tag of `api_v2.SamplingStrategyType` (only the two values
this code produces). -/
inductive SamplingStrategyType where
  | PROBABILISTIC
  | RATE_LIMITING
  deriving DecidableEq, Repr

/-- `api_v2.ProbabilisticSamplingStrategy`. -/
structure ProbabilisticSamplingStrategy where
  SamplingRate : ℚ
  deriving DecidableEq, Repr

/-- `api_v2.RateLimitingSamplingStrategy`. -/
structure RateLimitingSamplingStrategy where
  MaxTracesPerSecond : ℤ
  deriving DecidableEq, Repr

/-- `api_v2.OperationSamplingStrategy`. -/
structure OperationSamplingStrategy where
  Operation : String
  ProbabilisticSampling : Option ProbabilisticSamplingStrategy
  deriving DecidableEq, Repr

/-- `api_v2.PerOperationSamplingStrategies` (the two lower/upper bound
fields are never touched by this code and are omitted). -/
structure PerOperationSamplingStrategies where
  DefaultSamplingProbability : ℚ
  PerOperationStrategies : List OperationSamplingStrategy
  deriving DecidableEq, Repr

/-- `api_v2.SamplingStrategyResponse`. -/
structure SamplingStrategyResponse where
  StrategyType : SamplingStrategyType
  ProbabilisticSampling : Option ProbabilisticSamplingStrategy := none
  RateLimitingSampling : Option RateLimitingSamplingStrategy := none
  OperationSampling : Option PerOperationSamplingStrategies := none
  deriving DecidableEq, Repr

/-- Modelled from the spec: the raw `strategy` input record of
`strategy.go` (not under src/): `{ "type": string, "param": number }`.
The Go field `Type` is renamed `typ` (Lean reserves `Type`). -/
structure strategy where
  typ : String
  param : ℚ
  deriving DecidableEq, Repr

/-- Modelled from the spec: the raw `operationStrategy` input record of
`strategy.go` (not under src/): an operation name plus an embedded
`strategy`. -/
structure operationStrategy where
  operation : String
  strat : strategy
  deriving DecidableEq, Repr

/-- Modelled from the spec: the raw `serviceStrategy` input record of
`strategy.go` (not under src/): a service name, an embedded `strategy`,
and an ordered list of operation overrides. -/
structure serviceStrategy where
  service : String
  strat : strategy
  operationStrategies : List operationStrategy
  deriving DecidableEq, Repr

/-- Modelled from the spec: the raw configuration root `strategies` of
`strategy.go` (not under src/): an optional default strategy and a
sequence of service strategies. -/
structure strategies where
  defaultStrategy : Option serviceStrategy := none
  serviceStrategies : List serviceStrategy := []
  deriving DecidableEq, Repr

/-- Modelled from the spec: the `samplerTypeProbabilistic` string constant
("probabilistic", §6 of the spec). -/
def samplerTypeProbabilistic : String := "probabilistic"

/-- Modelled from the spec: the `samplerTypeRateLimiting` string constant
("ratelimiting", §6 of the spec). -/
def samplerTypeRateLimiting : String := "ratelimiting"

/-- Modelled from the spec: the fixed global default sampling probability
constant (`defaultSamplingProbability`, not under src/; the spec calls it
"a fixed default probabilistic strategy with a fixed low rate"). -/
def defaultSamplingProbability : ℚ := mkRat 1 1000

/-- Modelled from the spec: `defaultStrategyResponse()` (not under src/),
the bootstrap default strategy response: probabilistic sampling at
`defaultSamplingProbability`, no rate limiting, no per-operation table. -/
def defaultStrategyResponse : SamplingStrategyResponse :=
  { StrategyType := .PROBABILISTIC
    ProbabilisticSampling := some ({ SamplingRate := defaultSamplingProbability }) }

/-- The `storedStrategies` record: the published snapshot. -/
structure StoredStrategies where
  defaultStrategy : SamplingStrategyResponse
  serviceStrategies : List (String × SamplingStrategyResponse)
  deriving DecidableEq, Repr

/-- Modelled from the spec: `defaultStrategies()` (not under src/), the
bootstrap snapshot: the bootstrap default response and an empty service
map. -/
def defaultStrategies : StoredStrategies :=
  { defaultStrategy := defaultStrategyResponse, serviceStrategies := [] }

/-- Go map insert `m[k] = v`: overwrite the entry for `k` when present,
append it otherwise. -/
def insertSvc (m : List (String × SamplingStrategyResponse)) (k : String)
    (v : SamplingStrategyResponse) : List (String × SamplingStrategyResponse) :=
  match m with
  | [] => [(k, v)]
  | (k', v') :: rest => if k' = k then (k, v) :: rest else (k', v') :: insertSvc rest k v

/-- Go map lookup `m[k]`. -/
def lookupSvc (m : List (String × SamplingStrategyResponse)) (k : String) :
    Option SamplingStrategyResponse :=
  match m with
  | [] => none
  | (k', v') :: rest => if k' = k then some v' else lookupSvc rest k

/-- `parseStrategy`: dispatch on the raw type string. Go's `int32(param)`
conversion truncates toward zero, modelled by `Int.tdiv` (the int32 wrap on
out-of-range values is not modelled; no claim touches it). Unknown types
fall back to the bootstrap default response (the Go code also logs a
warning, which is not modelled). -/
def parseStrategy (st : strategy) : SamplingStrategyResponse :=
  if st.typ = samplerTypeProbabilistic then
    { StrategyType := .PROBABILISTIC
      ProbabilisticSampling := some ({ SamplingRate := st.param }) }
  else if st.typ = samplerTypeRateLimiting then
    { StrategyType := .RATE_LIMITING
      RateLimitingSampling := some ({ MaxTracesPerSecond := st.param.num.tdiv st.param.den }) }
  else
    defaultStrategyResponse

/-- `parseOperationStrategy`: resolve an operation override's strategy;
a rate-limiting resolution is rejected (`ok = false` in Go, `none` here;
the warning log is not modelled). -/
def parseOperationStrategy (st : strategy) : Option SamplingStrategyResponse :=
  let s := parseStrategy st
  if s.StrategyType = .RATE_LIMITING then none else some s

/-- The entry list built by the loop of `parseServiceStrategies`: one
appended entry per override whose strategy does not resolve to
rate limiting, in input order. -/
def serviceOperationEntries (ov : List operationStrategy) :
    List OperationSamplingStrategy :=
  ov.filterMap fun os =>
    match parseOperationStrategy os.strat with
    | none => none
    | some s => some ({ Operation := os.operation
                        ProbabilisticSampling := s.ProbabilisticSampling })

/-- `parseServiceStrategies`: resolve the base strategy; with no operation
overrides return it unchanged, otherwise attach a per-operation table whose
default probability is the base rate when the base resolved probabilistic
(in Go the `PROBABILISTIC` branch dereferences `resp.ProbabilisticSampling`,
which `parseStrategy` guarantees non-nil in that case; the `_, _` fallback
of the match is the field's initial value `defaultSamplingProbability`). -/
def parseServiceStrategies (s : serviceStrategy) : SamplingStrategyResponse :=
  let resp := parseStrategy s.strat
  if s.operationStrategies.length = 0 then resp
  else
    let defProb : ℚ :=
      match resp.StrategyType, resp.ProbabilisticSampling with
      | .PROBABILISTIC, some p => p.SamplingRate
      | _, _ => defaultSamplingProbability
    { resp with OperationSampling :=
        (some { DefaultSamplingProbability := defProb
                PerOperationStrategies := serviceOperationEntries s.operationStrategies }) }

/-- `mergePerOperationSamplingStrategies`: `a` takes precedence over `b`.
The Go code builds a set `m` of `a`'s operation names, then appends each
entry of `b` whose name is not in `m` (never updating `m`). -/
def mergePerOperationSamplingStrategies
    (a b : List OperationSamplingStrategy) : List OperationSamplingStrategy :=
  a ++ b.filter fun bOp => !(a.any fun aOp => aOp.Operation = bOp.Operation)

/-- The body of the service loop of `parseStrategies` for one service:
resolve it; when it has no per-operation table inherit a copy of the
default's table (if any) rescaled to the service's own probabilistic rate;
when it has one, and merging is enabled (the default's table exists with a
non-nil entry slice), merge its entries with the default's. -/
def resolveServiceEntry (defaultStrategy : SamplingStrategyResponse)
    (s : serviceStrategy) : SamplingStrategyResponse :=
  let resolved := parseServiceStrategies s
  match resolved.OperationSampling with
  | none =>
    match defaultStrategy.OperationSampling, resolved.ProbabilisticSampling with
    | some dOpS, some ps =>
      { resolved with OperationSampling :=
          (some { dOpS with DefaultSamplingProbability := ps.SamplingRate }) }
    | _, _ => resolved
  | some opS =>
    match defaultStrategy.OperationSampling with
    | some dOpS =>
      if dOpS.PerOperationStrategies ≠ [] then
        { resolved with OperationSampling :=
            (some { opS with PerOperationStrategies :=
              (mergePerOperationSamplingStrategies
                opS.PerOperationStrategies dOpS.PerOperationStrategies) }) }
      else resolved
    | none => resolved

/-- The snapshot built by `parseStrategies` from a non-nil configuration:
start from the bootstrap snapshot, resolve the default strategy when
present, then fold the service strategies in input order into the map
(a later duplicate service name overwrites an earlier one). -/
def parseStrategiesCore (cfg : strategies) : StoredStrategies :=
  let newStore := defaultStrategies
  let defaultStrategy :=
    match cfg.defaultStrategy with
    | some d => parseServiceStrategies d
    | none => newStore.defaultStrategy
  { defaultStrategy := defaultStrategy
    serviceStrategies :=
      cfg.serviceStrategies.foldl
        (fun m s => insertSvc m s.service (resolveServiceEntry defaultStrategy s))
        newStore.serviceStrategies }

/-- The store: the `atomic.Value` holding the published snapshot, plus a
generation counter incremented on every `Store` call (each publish swaps in
a fresh pointer, so equal `gen` means reference-identical snapshot). -/
structure StoreState where
  stored : StoredStrategies
  gen : ℕ
  deriving DecidableEq, Repr

/-- `parseStrategies`: with a nil configuration pointer, log and return
without publishing; otherwise build and publish a brand-new snapshot. -/
def parseStrategies (st : StoreState) (cfg : Option strategies) : StoreState :=
  match cfg with
  | none => st
  | some c => { stored := parseStrategiesCore c, gen := st.gen + 1 }

/-- `GetSamplingStrategy`: look the service up in the published snapshot,
fall back to the default strategy; the error result is always nil
(modelled as `Option String`, always `none`). -/
def GetSamplingStrategy (st : StoredStrategies) (serviceName : String) :
    SamplingStrategyResponse × Option String :=
  match lookupSvc st.serviceStrategies serviceName with
  | some strat => (strat, none)
  | none => (st.defaultStrategy, none)

/-- A byte string as fetched from the source. `null` is the byte string
"null" (`nullJSON` in the source); `valid c tag` decodes to configuration
`c` (`tag` separates byte-different encodings of the same document);
`malformed e` makes `json.Unmarshal` fail with message `e`. Equality of
`Raw` values models byte equality. -/
inductive Raw where
  | null
  | valid (c : strategies) (tag : String)
  | malformed (e : String)
  deriving DecidableEq, Repr

/-- The `nullJSON` constant (`[]byte("null")`). -/
def nullJSON : Raw := Raw.null

/-- `json.Unmarshal(bytes, &strategies)` with a `*strategies` target
(as in `loadStrategies`): the JSON literal null un-marshals to a nil
pointer. -/
def unmarshalStrategiesPtr (b : Raw) : Except String (Option strategies) :=
  match b with
  | .null => .ok none
  | .valid c _ => .ok (some c)
  | .malformed e => .error e

/-- `json.Unmarshal(bytes, &strategies)` with a `strategies` value target
(as in `updateSamplingStrategy`): the JSON literal null leaves the value
at its zero value (Go: unmarshaling null into a non-pointer is a no-op),
so the caller always sees a non-nil `&strategies`. -/
def unmarshalStrategiesVal (b : Raw) : Except String strategies :=
  match b with
  | .null => .ok {}
  | .valid c _ => .ok c
  | .malformed e => .error e

/-- An HTTP response as seen by `downloadSamplingStrategies` after the
body was read: status code plus body bytes. -/
structure HTTPResponse where
  StatusCode : ℕ
  Body : Raw
  deriving DecidableEq, Repr

/-- `downloadSamplingStrategies`: a transport error is an error; a 503
response yields the `nullJSON` bytes; any other non-200 status is an
error; a 200 response yields the body. (The body-read error path is folded
into the transport-error input.) -/
def downloadSamplingStrategies (resp : Except String HTTPResponse) :
    Except String Raw :=
  match resp with
  | .error e => .error ("failed to download sampling strategies: " ++ e)
  | .ok r =>
    if r.StatusCode = 503 then .ok nullJSON
    else if r.StatusCode ≠ 200 then
      .error ("receiving " ++ toString r.StatusCode ++ " while downloading strategies file")
    else .ok r.Body

/-- `loadStrategies`: run the loader, then un-marshal through a
`*strategies` target ("null" becomes a nil configuration). The loader's
outcome is the function's input. -/
def loadStrategies (loadResult : Except String Raw) :
    Except String (Option strategies) :=
  match loadResult with
  | .error e => .error e
  | .ok b => unmarshalStrategiesPtr b

/-- `updateSamplingStrategy`: un-marshal into a `strategies` VALUE (not a
pointer), so `&strategies` is never nil and `parseStrategies` always
receives a non-nil configuration — on the bytes "null" it receives the
zero-value configuration. -/
def updateSamplingStrategy (st : StoreState) (b : Raw) :
    Except String StoreState :=
  match unmarshalStrategiesVal b with
  | .error e => .error ("failed to unmarshal sampling strategies: " ++ e)
  | .ok cfg => .ok (parseStrategies st (some cfg))

/-- `reloadSamplingStrategy`: on a loader error keep state and `lastValue`;
if the fetched bytes equal `lastValue` do nothing; otherwise apply
`updateSamplingStrategy`, keeping the old state and `lastValue` when it
fails and remembering the new bytes when it succeeds. Returns the new
store state with the new `lastValue`. -/
def reloadSamplingStrategy (st : StoreState) (loadResult : Except String Raw)
    (lastValue : Raw) : StoreState × Raw :=
  match loadResult with
  | .error _ => (st, lastValue)
  | .ok newValue =>
    if lastValue = newValue then (st, lastValue)
    else
      match updateSamplingStrategy st newValue with
      | .ok st' => (st', newValue)
      | .error _ => (st, lastValue)

/-- `autoUpdateStrategies`: the background loop; `lastValue` starts as the
string "null" (`string(nullJSON)`), and each tick runs
`reloadSamplingStrategy`. The loader outcome of each tick is given as a
list; the result is the store state after the ticks. -/
def autoUpdateStrategies (st : StoreState) (ticks : List (Except String Raw)) :
    StoreState :=
  (ticks.foldl (fun p t => reloadSamplingStrategy p.1 t p.2) (st, nullJSON)).1

/-- `NewStrategyStore`: publish the bootstrap snapshot (generation 0),
then — with no strategies file — run `parseStrategies(nil)` and succeed, or
— with a file — run the initial synchronous load and fail construction on
its error, else publish the parsed strategies. `hasFile` models
`options.StrategiesFile != ""`; `loadResult` the outcome of the loader's
one synchronous call. The background goroutine is modelled separately by
`autoUpdateStrategies`. -/
def NewStrategyStore (hasFile : Bool) (loadResult : Except String Raw) :
    Except String StoreState :=
  let h : StoreState := { stored := defaultStrategies, gen := 0 }
  if !hasFile then .ok (parseStrategies h none)
  else
    match loadStrategies loadResult with
    | .error e => .error e
    | .ok cfg => .ok (parseStrategies h cfg)

/-- "At most one entry per operation name" for an optional per-operation
table: vacuous when absent, `Nodup` of the operation names when present. -/
def opsNodup : Option PerOperationSamplingStrategies → Prop
  | none => True
  | some opS => (opS.PerOperationStrategies.map OperationSamplingStrategy.Operation).Nodup

instance (o : Option PerOperationSamplingStrategies) : Decidable (opsNodup o) :=
  match o with
  | none => inferInstanceAs (Decidable True)
  | some opS =>
      inferInstanceAs
        (Decidable (opS.PerOperationStrategies.map OperationSamplingStrategy.Operation).Nodup)

/-- The raw override list of one service strategy repeats no operation
name. -/
def svcOverridesNodup (s : serviceStrategy) : Prop :=
  (s.operationStrategies.map operationStrategy.operation).Nodup

instance (s : serviceStrategy) : Decidable (svcOverridesNodup s) :=
  inferInstanceAs (Decidable (s.operationStrategies.map operationStrategy.operation).Nodup)

/-- The optional default entry of a configuration repeats no operation
name. -/
def defaultOverridesNodup : Option serviceStrategy → Prop
  | none => True
  | some d => svcOverridesNodup d

instance (o : Option serviceStrategy) : Decidable (defaultOverridesNodup o) :=
  match o with
  | none => inferInstanceAs (Decidable True)
  | some d => inferInstanceAs (Decidable (svcOverridesNodup d))

/-- The claimed snapshot invariant: every resolved per-operation entry
list — the default strategy's and every service's — has at most one entry
per operation name. -/
def snapshotEntriesNodup (st : StoredStrategies) : Prop :=
  opsNodup st.defaultStrategy.OperationSampling ∧
    ∀ p ∈ st.serviceStrategies, opsNodup p.2.OperationSampling

instance (st : StoredStrategies) : Decidable (snapshotEntriesNodup st) :=
  inferInstanceAs (Decidable (opsNodup st.defaultStrategy.OperationSampling ∧
    ∀ p ∈ st.serviceStrategies, opsNodup p.2.OperationSampling))

/-- A probabilistic strategy record for the raw input. -/
def probStrategy (q : ℚ) : strategy := { typ := "probabilistic", param := q }

/-- A rate-limiting strategy record for the raw input. -/
def rateStrategy (q : ℚ) : strategy := { typ := "ratelimiting", param := q }

/-- Concrete configuration: one service "foo" sampled probabilistically at
0.8, no default entry, no operation overrides. -/
def fooCfg : strategies :=
  { serviceStrategies :=
      [{ service := "foo", strat := probStrategy (mkRat 4 5), operationStrategies := [] }] }

/-- The byte string of `fooCfg`'s JSON document. -/
def fooRaw : Raw := Raw.valid fooCfg "doc-v1"

/-- Concrete configuration with duplicate operation names inside one
service's own override list. -/
def dupOpsCfg : strategies :=
  { serviceStrategies :=
      [{ service := "s", strat := probStrategy (mkRat 1 2),
         operationStrategies :=
           [{ operation := "op1", strat := probStrategy (mkRat 1 5) },
            { operation := "op1", strat := probStrategy (mkRat 3 10) }] }] }

/-- Concrete configuration exercising the default/service per-operation
merge: default entries `[A:0.1, B:0.2]`, service "svc" overrides
`[A:0.9]`. -/
def mergeExampleCfg : strategies :=
  { defaultStrategy :=
      some { service := "", strat := probStrategy (mkRat 1 2),
             operationStrategies :=
               [{ operation := "A", strat := probStrategy (mkRat 1 10) },
                { operation := "B", strat := probStrategy (mkRat 1 5) }] },
    serviceStrategies :=
      [{ service := "svc", strat := probStrategy (mkRat 9 10),
         operationStrategies := [{ operation := "A", strat := probStrategy (mkRat 9 10) }] }] }

/-- A default strategy response carrying a per-operation table, for the
inheritance theorem: probabilistic 0.5 with one entry `A:0.1`. -/
def inhDefaultOpS : PerOperationSamplingStrategies :=
  { DefaultSamplingProbability := mkRat 1 2
    PerOperationStrategies :=
      [{ Operation := "A", ProbabilisticSampling := some { SamplingRate := mkRat 1 10 } }] }

/-- The resolved default strategy used by the inheritance theorem's
witness. -/
def inhDefault : SamplingStrategyResponse :=
  { StrategyType := .PROBABILISTIC
    ProbabilisticSampling := some ({ SamplingRate := mkRat 1 2 })
    OperationSampling := some inhDefaultOpS }

/-- A service strategy with no operation overrides, probabilistic 0.8. -/
def inhService : serviceStrategy :=
  { service := "foo", strat := probStrategy (mkRat 4 5), operationStrategies := [] }

/-- An operation override resolving to probabilistic 0.2. -/
def c7pre : List operationStrategy := [{ operation := "a", strat := probStrategy (mkRat 1 5) }]

/-- An operation override resolving to rate limiting. -/
def c7os : operationStrategy := { operation := "b", strat := rateStrategy 3 }

/-- An operation override resolving to probabilistic 0.4. -/
def c7post : List operationStrategy := [{ operation := "c", strat := probStrategy (mkRat 2 5) }]

/-- C3: `GetSamplingStrategy` returns the snapshot's entry for the service
when `byService` has one and the snapshot's default strategy otherwise,
and its error result is always nil. -/
theorem getSamplingStrategy_lookup_or_default (st : StoredStrategies) (name : String) :
    (GetSamplingStrategy st name).2 = none ∧
    (GetSamplingStrategy st name).1 =
      (lookupSvc st.serviceStrategies name).getD st.defaultStrategy := by
  unfold GetSamplingStrategy
  cases lookupSvc st.serviceStrategies name <;> simp

/-- C4: the per-operation merge keeps every entry of `a` in order and then
appends the entries of `b` whose operation name does not occur in `a`, in
`b`'s order; in particular default entries `[A:0.1, B:0.2]` merged under
service entries `[A:0.9]` give exactly `[A:0.9, B:0.2]`. -/
theorem mergePerOperation_a_precedence (a b : List OperationSamplingStrategy) :
    mergePerOperationSamplingStrategies a b =
      a ++ b.filter
        (fun bOp => decide (bOp.Operation ∉ a.map OperationSamplingStrategy.Operation)) ∧
    mergePerOperationSamplingStrategies
      [{ Operation := "A", ProbabilisticSampling := some { SamplingRate := mkRat 9 10 } }]
      [{ Operation := "A", ProbabilisticSampling := some { SamplingRate := mkRat 1 10 } },
       { Operation := "B", ProbabilisticSampling := some { SamplingRate := mkRat 1 5 } }] =
      [{ Operation := "A", ProbabilisticSampling := some { SamplingRate := mkRat 9 10 } },
       { Operation := "B", ProbabilisticSampling := some { SamplingRate := mkRat 1 5 } }] := by
  constructor
  · unfold mergePerOperationSamplingStrategies
    congr 1
    apply List.filter_congr
    intro e _
    rw [Bool.eq_iff_iff]
    simp [List.any_eq_true, List.mem_map]
  · decide

/-- C10: merging with an empty default list is the identity, and merging
a merged result with the same default list again changes nothing. -/
theorem mergePerOperation_identity_idempotent (a b : List OperationSamplingStrategy) :
    mergePerOperationSamplingStrategies a [] = a ∧
    mergePerOperationSamplingStrategies (mergePerOperationSamplingStrategies a b) b =
      mergePerOperationSamplingStrategies a b := by
  refine ⟨by simp [mergePerOperationSamplingStrategies], ?_⟩
  conv_lhs => rw [mergePerOperationSamplingStrategies]
  have h : (b.filter fun bOp =>
      !((mergePerOperationSamplingStrategies a b).any
        fun aOp => aOp.Operation = bOp.Operation)) = [] := by
    rw [List.filter_eq_nil_iff]
    intro e he
    simp only [Bool.not_eq_true', Bool.not_eq_true, Bool.not_not]
    rw [Bool.not_eq_false]
    rw [mergePerOperationSamplingStrategies, List.any_append]
    by_cases hc : (a.any fun aOp => aOp.Operation = e.Operation) = true
    · simp [hc]
    · have hmem : e ∈ b.filter fun bOp =>
          !(a.any fun aOp => aOp.Operation = bOp.Operation) :=
        List.mem_filter.mpr ⟨he, by simp [hc]⟩
      have : ((b.filter fun bOp =>
          !(a.any fun aOp => aOp.Operation = bOp.Operation)).any
            fun aOp => aOp.Operation = e.Operation) = true :=
        List.any_eq_true.mpr ⟨e, hmem, by simp⟩
      simp [this]
  rw [h, List.append_nil]

/-- C7: an operation override whose strategy resolves to rate limiting
contributes no entry: removing it from the override list leaves the
resolved entry list unchanged, and alone it produces no entries (the
logged warning is the only other effect of the source; all other
overrides resolve unaffected). -/
theorem serviceOperationEntries_drop_ratelimiting
    (pre post : List operationStrategy) (os : operationStrategy)
    (h : (parseStrategy os.strat).StrategyType = .RATE_LIMITING) :
    serviceOperationEntries (pre ++ os :: post) = serviceOperationEntries (pre ++ post) ∧
    serviceOperationEntries [os] = [] := by
  have hnone : parseOperationStrategy os.strat = none := by
    simp [parseOperationStrategy, h]
  constructor
  · simp [serviceOperationEntries, List.filterMap_append, List.filterMap_cons, hnone]
  · simp [serviceOperationEntries, List.filterMap_cons, hnone]

/-- Witness for C7 at a concrete service: override "b" is rate limiting;
dropping it leaves the entries of overrides "a" and "c" unchanged. -/
theorem serviceOperationEntries_drop_ratelimiting_witness :
    (parseStrategy c7os.strat).StrategyType = .RATE_LIMITING ∧
    (serviceOperationEntries (c7pre ++ c7os :: c7post) =
        serviceOperationEntries (c7pre ++ c7post) ∧
      serviceOperationEntries [c7os] = []) :=
  ⟨by decide, serviceOperationEntries_drop_ratelimiting c7pre c7post c7os (by decide)⟩

/-- C8: a strategy whose type string is neither "probabilistic" nor
"ratelimiting" resolves to the bootstrap default strategy response;
`parseStrategy` is total, so resolution never aborts. -/
theorem parseStrategy_unknown_type_default (st : strategy)
    (h1 : st.typ ≠ samplerTypeProbabilistic)
    (h2 : st.typ ≠ samplerTypeRateLimiting) :
    parseStrategy st = defaultStrategyResponse := by
  simp [parseStrategy, h1, h2]

/-- Witness for C8 at the concrete unknown type string "bogus". -/
theorem parseStrategy_unknown_type_default_witness :
    ({ typ := "bogus", param := 7 } : strategy).typ ≠ samplerTypeProbabilistic ∧
    ({ typ := "bogus", param := 7 } : strategy).typ ≠ samplerTypeRateLimiting ∧
    parseStrategy { typ := "bogus", param := 7 } = defaultStrategyResponse :=
  ⟨by decide, by decide,
    parseStrategy_unknown_type_default { typ := "bogus", param := 7 } (by decide) (by decide)⟩

/-- C9: when a source is configured and the initial synchronous load
fails — the loader returns an error, or the bytes are malformed JSON — the
constructor propagates the error and produces no store state. -/
theorem newStrategyStore_error_on_first_load (lr : Except String Raw) (e : String)
    (h : lr = .error e ∨ lr = .ok (.malformed e)) :
    loadStrategies lr = .error e ∧ NewStrategyStore true lr = .error e := by
  have hl : loadStrategies lr = .error e := by
    rcases h with h | h <;> simp [loadStrategies, h, unmarshalStrategiesPtr]
  exact ⟨hl, by simp [NewStrategyStore, hl]⟩

/-- Witness for C9 at concrete malformed bytes. -/
theorem newStrategyStore_error_on_first_load_witness :
    ((.ok (.malformed "bad") : Except String Raw) = .error "bad" ∨
      (.ok (.malformed "bad") : Except String Raw) = .ok (.malformed "bad")) ∧
    (loadStrategies (.ok (.malformed "bad")) = .error "bad" ∧
      NewStrategyStore true (.ok (.malformed "bad")) = .error "bad") :=
  ⟨Or.inr rfl, newStrategyStore_error_on_first_load (.ok (.malformed "bad")) "bad" (Or.inr rfl)⟩

/-- The two sampler type strings differ. -/
theorem samplerTypes_ne : samplerTypeRateLimiting ≠ samplerTypeProbabilistic := by
  decide

/-- `parseStrategy` never attaches a per-operation table. -/
theorem parseStrategy_operationSampling_none (st : strategy) :
    (parseStrategy st).OperationSampling = none := by
  by_cases h1 : st.typ = samplerTypeProbabilistic
  · simp [parseStrategy, h1]
  · by_cases h2 : st.typ = samplerTypeRateLimiting <;>
      simp [parseStrategy, h1, h2, defaultStrategyResponse, samplerTypes_ne]

/-- On `parseStrategy` outputs, "the strategy is probabilistic" (the Go
check `ProbabilisticSampling != nil`) coincides with the resolved type tag
being `PROBABILISTIC`. -/
theorem parseStrategy_probabilistic_iff (st : strategy) :
    (parseStrategy st).StrategyType = .PROBABILISTIC ↔
      (parseStrategy st).ProbabilisticSampling.isSome := by
  by_cases h1 : st.typ = samplerTypeProbabilistic
  · simp [parseStrategy, h1]
  · by_cases h2 : st.typ = samplerTypeRateLimiting <;>
      simp [parseStrategy, h1, h2, defaultStrategyResponse, samplerTypes_ne]

/-- C6: for a service strategy with no operation overrides, if the default
strategy has a per-operation table and the service's resolved strategy is
probabilistic (`ProbabilisticSampling` present, which by
`parseStrategy_probabilistic_iff` is the same as resolving probabilistic),
the resolved service strategy receives a copy of the default's table with
its default probability replaced by the service's own rate; if the default
has no table, or the service is not probabilistic, the resolved service
strategy has no per-operation table at all. -/
theorem resolveService_inherits_default_table (ds : SamplingStrategyResponse)
    (s : serviceStrategy) (hno : s.operationStrategies = []) :
    (∀ dOpS ps, ds.OperationSampling = some dOpS →
        (parseServiceStrategies s).ProbabilisticSampling = some ps →
        resolveServiceEntry ds s =
          { parseServiceStrategies s with OperationSampling :=
              (some { dOpS with DefaultSamplingProbability := ps.SamplingRate }) }) ∧
    ((ds.OperationSampling = none ∨
        (parseServiceStrategies s).ProbabilisticSampling = none) →
      (resolveServiceEntry ds s).OperationSampling = none) := by
  have hps : parseServiceStrategies s = parseStrategy s.strat := by
    simp [parseServiceStrategies, hno]
  have hopn : (parseServiceStrategies s).OperationSampling = none := by
    rw [hps]; exact parseStrategy_operationSampling_none s.strat
  constructor
  · intro dOpS ps hd hp
    simp [resolveServiceEntry, hopn, hd, hp]
  · intro h
    rcases h with h | h
    · cases hp : (parseServiceStrategies s).ProbabilisticSampling <;>
        simp [resolveServiceEntry, hopn, h, hp]
    · cases hds : ds.OperationSampling <;>
        simp [resolveServiceEntry, hopn, h, hds]

/-- Witness for C6: default probabilistic 0.5 with table `[A:0.1]`,
service "foo" probabilistic 0.8 with no overrides; "foo" inherits the
default's table with default probability 0.8. -/
theorem resolveService_inherits_default_table_witness :
    inhService.operationStrategies = [] ∧
    resolveServiceEntry inhDefault inhService =
      { parseServiceStrategies inhService with OperationSampling :=
          (some { inhDefaultOpS with DefaultSamplingProbability := mkRat 4 5 }) } :=
  ⟨rfl, (resolveService_inherits_default_table inhDefault inhService rfl).1
      inhDefaultOpS { SamplingRate := mkRat 4 5 } rfl rfl⟩

/-- C2 counterexample: at startup the store applies `fooRaw` (content
"doc-v1"), but the reload loop's `lastValue` starts as the bytes "null",
not as the startup content; on the first tick, fetching bytes identical to
the startup content still re-parses and publishes a new snapshot (the
generation counter moves from 1 to 2), contradicting "the startup load
counts as applied content ... the published snapshot stays
reference-identical". -/
theorem reload_firstTick_republishes_startup_bytes :
    NewStrategyStore true (.ok fooRaw) =
      .ok { stored := parseStrategiesCore fooCfg, gen := 1 } ∧
    (autoUpdateStrategies { stored := parseStrategiesCore fooCfg, gen := 1 }
        [.ok fooRaw]).stored = parseStrategiesCore fooCfg ∧
    (autoUpdateStrategies { stored := parseStrategiesCore fooCfg, gen := 1 }
        [.ok fooRaw]).gen = 2 := ⟨rfl, rfl, rfl⟩

/-- C2 amended: the tick's fetched bytes are compared to the reload loop's
`lastValue` (initialized to the bytes "null", not to the startup content);
when they are equal the tick is a no-op — no parse, no resolve, and the
store state (hence the published snapshot reference) is unchanged — and a
second consecutive tick fetching byte-identical content never produces a
new snapshot. -/
theorem reload_equal_bytes_noop (st : StoreState) (lv b : Raw) :
    (lv = b → reloadSamplingStrategy st (.ok b) lv = (st, lv)) ∧
    reloadSamplingStrategy (reloadSamplingStrategy st (.ok b) lv).1 (.ok b)
        (reloadSamplingStrategy st (.ok b) lv).2 =
      reloadSamplingStrategy st (.ok b) lv := by
  constructor
  · intro h; subst h; simp [reloadSamplingStrategy]
  · by_cases h : lv = b
    · subst h; simp [reloadSamplingStrategy]
    · rcases hu : updateSamplingStrategy st b with st' | e <;>
        simp [reloadSamplingStrategy, h, hu]

/-- Witness for C2 amended: a tick whose fetched bytes equal `lastValue`
leaves the bootstrap store untouched. -/
theorem reload_equal_bytes_noop_witness :
    reloadSamplingStrategy { stored := defaultStrategies, gen := 0 } (.ok fooRaw) fooRaw =
      ({ stored := defaultStrategies, gen := 0 }, fooRaw) :=
  (reload_equal_bytes_noop { stored := defaultStrategies, gen := 0 } fooRaw fooRaw).1 rfl

/-- C1 (code bug): a 503 download yields the bytes "null"; a store started
on `fooRaw` (service "foo" probabilistic 0.8) that applied that content on
a tick, and then receives the "null" bytes on the next tick, REPLACES its
published snapshot with the bootstrap defaults — `GetSamplingStrategy`
for "foo" falls from probabilistic 0.8 to the bootstrap default — because
`updateSamplingStrategy` un-marshals into a `strategies` VALUE, so "null"
becomes a zero configuration instead of the nil pointer the source's own
`nullJSON` comment and the nil-check of `parseStrategies` expect. -/
theorem nullReload_resets_snapshot_to_defaults :
    downloadSamplingStrategies (.ok { StatusCode := 503, Body := .malformed "ignored" }) =
      .ok nullJSON ∧
    NewStrategyStore true (.ok fooRaw) =
      .ok { stored := parseStrategiesCore fooCfg, gen := 1 } ∧
    (GetSamplingStrategy (parseStrategiesCore fooCfg) "foo").1 =
      { StrategyType := .PROBABILISTIC
        ProbabilisticSampling := some { SamplingRate := mkRat 4 5 } } ∧
    (autoUpdateStrategies { stored := parseStrategiesCore fooCfg, gen := 1 }
        [.ok fooRaw, .ok nullJSON]).stored = defaultStrategies ∧
    (GetSamplingStrategy (autoUpdateStrategies
        { stored := parseStrategiesCore fooCfg, gen := 1 }
        [.ok fooRaw, .ok nullJSON]).stored "foo").1 = defaultStrategyResponse :=
  ⟨rfl, rfl, rfl, rfl, rfl⟩

/-- The operation names of the entries built from an override list form a
sublist of the override list's own operation names. -/
theorem serviceOperationEntries_ops_sublist (ov : List operationStrategy) :
    ((serviceOperationEntries ov).map OperationSamplingStrategy.Operation).Sublist
      (ov.map operationStrategy.operation) := by
  induction ov with
  | nil => simp [serviceOperationEntries]
  | cons os rest ih =>
    cases h : parseOperationStrategy os.strat with
    | none =>
      simpa [serviceOperationEntries, List.filterMap_cons, h] using
        ih.cons os.operation
    | some s =>
      simpa [serviceOperationEntries, List.filterMap_cons, h] using
        ih.cons₂ os.operation

/-- A duplicate-free override list resolves to a per-operation table with
duplicate-free operation names (or to no table at all). -/
theorem parseServiceStrategies_opsNodup (s : serviceStrategy)
    (h : svcOverridesNodup s) :
    opsNodup (parseServiceStrategies s).OperationSampling := by
  unfold parseServiceStrategies
  split
  · rw [parseStrategy_operationSampling_none]; trivial
  · show ((serviceOperationEntries s.operationStrategies).map
      OperationSamplingStrategy.Operation).Nodup
    exact h.sublist (serviceOperationEntries_ops_sublist _)

/-- Merging entry lists with duplicate-free operation names yields a
duplicate-free result: the appended part of `b` is filtered to names not
occurring in `a`. -/
theorem merge_opsNodup (a b : List OperationSamplingStrategy)
    (ha : (a.map OperationSamplingStrategy.Operation).Nodup)
    (hb : (b.map OperationSamplingStrategy.Operation).Nodup) :
    ((mergePerOperationSamplingStrategies a b).map
      OperationSamplingStrategy.Operation).Nodup := by
  unfold mergePerOperationSamplingStrategies
  rw [List.map_append, List.nodup_append]
  refine ⟨ha, hb.sublist ((List.filter_sublist _).map _), ?_⟩
  intro x hxa hxf
  obtain ⟨e, he, hex⟩ := List.mem_map.mp hxf
  obtain ⟨y, hy, hyx⟩ := List.mem_map.mp hxa
  have hf := (List.mem_filter.mp he).2
  have hany : (a.any fun aOp => aOp.Operation = e.Operation) = true :=
    List.any_eq_true.mpr ⟨y, hy, by simp [hyx, hex]⟩
  simp [hany] at hf

/-- `resolveServiceEntry` keeps entry lists duplicate-free: each branch
returns the service's own table, the default's table (with another default
probability), or their merge. -/
theorem resolveServiceEntry_opsNodup (ds : SamplingStrategyResponse)
    (s : serviceStrategy) (hd : opsNodup ds.OperationSampling)
    (hs : svcOverridesNodup s) :
    opsNodup (resolveServiceEntry ds s).OperationSampling := by
  have hres := parseServiceStrategies_opsNodup s hs
  unfold resolveServiceEntry
  cases hro : (parseServiceStrategies s).OperationSampling with
  | none =>
    cases hds : ds.OperationSampling with
    | none =>
      cases hps : (parseServiceStrategies s).ProbabilisticSampling <;>
        simp [hro, hds, hps, opsNodup]
    | some dOpS =>
      rw [hds] at hd
      cases hps : (parseServiceStrategies s).ProbabilisticSampling with
      | none => simp [hro, hds, hps, opsNodup]
      | some ps => simpa [hro, hds, hps, opsNodup] using hd
  | some opS =>
    rw [hro] at hres
    cases hds : ds.OperationSampling with
    | none => simpa [hro, hds, opsNodup] using hres
    | some dOpS =>
      rw [hds] at hd
      by_cases hne : dOpS.PerOperationStrategies = []
      · simpa [hro, hds, hne, opsNodup] using hres
      · simpa [hro, hds, hne, opsNodup] using
          merge_opsNodup _ _ (by simpa [opsNodup] using hres) (by simpa [opsNodup] using hd)

/-- Membership after a Go map insert: the new binding or an old one. -/
theorem insertSvc_mem (m : List (String × SamplingStrategyResponse))
    (k : String) (v : SamplingStrategyResponse)
    (p : String × SamplingStrategyResponse) (hp : p ∈ insertSvc m k v) :
    p = (k, v) ∨ p ∈ m := by
  induction m with
  | nil => simpa [insertSvc] using hp
  | cons q rest ih =>
    obtain ⟨k', v'⟩ := q
    rw [insertSvc] at hp
    by_cases hq : k' = k
    · rw [if_pos hq] at hp
      rcases List.mem_cons.mp hp with h | h
      · exact .inl h
      · exact .inr (List.mem_cons_of_mem _ h)
    · rw [if_neg hq] at hp
      rcases List.mem_cons.mp hp with h | h
      · exact .inr (h ▸ List.mem_cons_self _ _)
      · rcases ih h with h' | h'
        · exact .inl h'
        · exact .inr (List.mem_cons_of_mem _ h')

/-- Invariant preservation through the service-strategy fold of
`parseStrategiesCore`: if every value already in the map and every value
to be inserted satisfies `P`, so does every value of the final map. -/
theorem foldl_insertSvc_all (P : SamplingStrategyResponse → Prop)
    (f : serviceStrategy → SamplingStrategyResponse) :
    ∀ (l : List serviceStrategy) (m : List (String × SamplingStrategyResponse)),
      (∀ p ∈ m, P p.2) → (∀ s ∈ l, P (f s)) →
      ∀ p ∈ l.foldl (fun m s => insertSvc m s.service (f s)) m, P p.2 := by
  intro l
  induction l with
  | nil => intro m hm _ p hp; exact hm p hp
  | cons s rest ih =>
    intro m hm hl p hp
    rw [List.foldl_cons] at hp
    refine ih (insertSvc m s.service (f s)) ?_
      (fun s' hs' => hl s' (List.mem_cons_of_mem _ hs')) p hp
    intro q hq
    rcases insertSvc_mem _ _ _ _ hq with h | h
    · rw [h]; exact hl s (List.mem_cons_self _ _)
    · exact hm q h

/-- The default strategy of a resolved snapshot. -/
theorem parseStrategiesCore_defaultStrategy (cfg : strategies) :
    (parseStrategiesCore cfg).defaultStrategy =
      match cfg.defaultStrategy with
      | some d => parseServiceStrategies d
      | none => defaultStrategyResponse := by
  cases h : cfg.defaultStrategy <;> simp [parseStrategiesCore, h, defaultStrategies]

/-- The service map of a resolved snapshot is the fold of
`resolveServiceEntry` over the input services. -/
theorem parseStrategiesCore_serviceStrategies (cfg : strategies) :
    (parseStrategiesCore cfg).serviceStrategies =
      cfg.serviceStrategies.foldl
        (fun m s => insertSvc m s.service
          (resolveServiceEntry (parseStrategiesCore cfg).defaultStrategy s)) [] := by
  cases h : cfg.defaultStrategy <;> simp [parseStrategiesCore, h, defaultStrategies]

/-- C5 counterexample: the claim fails as stated — resolving a
configuration whose service "s" lists the operation "op1" twice yields a
snapshot whose per-operation entry list for "s" holds two entries named
"op1": duplicates inside one service's own override list survive
resolution (the merge only deduplicates against the default list). -/
theorem parseStrategies_duplicateOps_counterexample :
    ¬ snapshotEntriesNodup (parseStrategiesCore dupOpsCfg) := by decide

/-- C5 amended: provided every override list of the input configuration
(the default entry's and each service's) repeats no operation name, every
resolved per-operation entry list of the produced snapshot — the default
strategy's and every service's — contains at most one entry per operation
name. -/
theorem parseStrategiesCore_entries_nodup (cfg : strategies)
    (hd : defaultOverridesNodup cfg.defaultStrategy)
    (hs : ∀ s ∈ cfg.serviceStrategies, svcOverridesNodup s) :
    snapshotEntriesNodup (parseStrategiesCore cfg) := by
  have hdef : opsNodup (parseStrategiesCore cfg).defaultStrategy.OperationSampling := by
    rw [parseStrategiesCore_defaultStrategy]
    cases h : cfg.defaultStrategy with
    | none => trivial
    | some d =>
      rw [h] at hd
      exact parseServiceStrategies_opsNodup d hd
  refine ⟨hdef, ?_⟩
  rw [parseStrategiesCore_serviceStrategies]
  exact foldl_insertSvc_all (fun r => opsNodup r.OperationSampling) _ _ _
    (by simp) (fun s hsm => resolveServiceEntry_opsNodup _ s hdef (hs s hsm))

/-- Witness for C5 amended at the merge-example configuration, whose
override lists are duplicate-free. -/
theorem parseStrategiesCore_entries_nodup_witness :
    defaultOverridesNodup mergeExampleCfg.defaultStrategy ∧
    (∀ s ∈ mergeExampleCfg.serviceStrategies, svcOverridesNodup s) ∧
    snapshotEntriesNodup (parseStrategiesCore mergeExampleCfg) :=
  ⟨by decide, by decide,
    parseStrategiesCore_entries_nodup mergeExampleCfg (by decide) (by decide)⟩

end StaticSampling
